import Mathlib

/-!
Verification of the hlsfy job-queue and conversion-pipeline orchestrator.

The development shallowly embeds the persisted job store (the sqlite
process_queue table), the queue operations of `src/core/queue.ts`, the
watchdog of `src/core/check-process.ts`, the cron schedule of
`src/cron/index.ts`, the stream-selection and quality-filtering logic of
`src/core/converter.ts`, the packager-argument assembly of `hlsFy`, and the
subtitle processing (`srtToVtt`, `convertToVtt`) of the converter, and proves
the specification's claims about them.
-/

namespace Hlsfy

/-- Job status values written to the `status` column of `process_queue`. -/
inductive Status where
  | pending
  | processing
  | done
  | failed
deriving DecidableEq

/-- One row of `process_queue`
(`id INTEGER PRIMARY KEY AUTOINCREMENT, status TEXT, source TEXT`). -/
structure Row where
  id : Nat
  status : Status
  source : String
deriving DecidableEq

/-- The persisted job store: the rows of `process_queue` in rowid order. -/
abbrev Store := List Row

/-- `Queue.hasPending`:
`SELECT * FROM process_queue WHERE status = ? OR status = ?` with
`('pending', 'processing')`, then `result.length > 0`. -/
def hasPending (s : Store) : Bool :=
  0 < (s.filter fun r =>
    decide (r.status = Status.pending) || decide (r.status = Status.processing)).length

/-- `Queue.getProcess`: `SELECT * FROM process_queue WHERE id = ?`;
better-sqlite3's `.get` returns the first matching row or undefined. -/
def getProcess (s : Store) (id : Nat) : Option Row :=
  s.find? fun r => r.id == id

/-- The rowid AUTOINCREMENT assigns to the next INSERT: one more than the
largest rowid ever used (no row is ever deleted, so that is the largest id). -/
def nextId (s : Store) : Nat :=
  (s.map fun r => r.id).foldr max 0 + 1

/-- Queue constructor crash recovery:
`UPDATE process_queue SET status = 'failed' WHERE status = 'pending' OR status = 'processing'`. -/
def recoverStartup (s : Store) : Store :=
  s.map fun r =>
    if r.status = Status.pending ∨ r.status = Status.processing then
      { r with status := Status.failed }
    else r

/-- Observable side effects of the watchdog, in the order it performs them. -/
inductive SysAction where
  | cleanTemp
  | exitProcess (code : Nat)
deriving DecidableEq

/-- `checkProcess` of `src/core/check-process.ts`: return at once when
`process.env.IGNORE_CHECK_PROCESS === 'true'`; return when `queue.hasPending()`;
otherwise `cleanTemp()` and then `process.exit(0)`. (The `Sentry.flush()`
awaited between the two when SENTRY_DSN is set touches neither the store nor
the temp directory.) -/
def checkProcess (ignoreCheckProcessEnv : String) (s : Store) : List SysAction :=
  if ignoreCheckProcessEnv = "true" then []
  else if hasPending s then []
  else [SysAction.cleanTemp, SysAction.exitProcess 0]

theorem hasPending_eq_false_iff (s : Store) :
    hasPending s = false ↔ ∀ r ∈ s, r.status = Status.done ∨ r.status = Status.failed := by
  unfold hasPending
  rw [Bool.eq_false_iff]
  simp only [ne_eq, Nat.pos_iff_ne_zero, not_not, List.length_eq_zero,
    List.filter_eq_nil_iff, Bool.or_eq_true, decide_eq_true_eq, not_or]
  constructor
  · intro h r hr
    rcases h r hr with ⟨h1, h2⟩
    cases hst : r.status <;> simp_all
  · intro h r hr
    rcases h r hr with h1 | h1 <;> simp [h1]

theorem hasPending_eq_true_iff (s : Store) :
    hasPending s = true ↔ ∃ r ∈ s, r.status = Status.pending ∨ r.status = Status.processing := by
  unfold hasPending
  simp only [decide_eq_true_eq, List.length_pos_iff_exists_mem, List.mem_filter,
    Bool.or_eq_true]

/-- C2: `hasPending()` returns false iff every persisted row has status
`done` or `failed`; equivalently it returns true iff some row has status
`pending` or `processing`. -/
theorem hasPending_iff_spec (s : Store) :
    (hasPending s = false ↔ ∀ r ∈ s, r.status = Status.done ∨ r.status = Status.failed) ∧
    (hasPending s = true ↔ ∃ r ∈ s, r.status = Status.pending ∨ r.status = Status.processing) :=
  ⟨hasPending_eq_false_iff s, hasPending_eq_true_iff s⟩

/-- C3: the watchdog check never exits while some persisted row is `pending`
or `processing` (it performs no action at all then); when no such row exists
and the check is not disabled it cleans the shared temp directory and then
exits with code 0; and when IGNORE_CHECK_PROCESS is the string "true" it does
nothing at all. -/
theorem checkProcess_spec (env : String) (s : Store) :
    ((∃ r ∈ s, r.status = Status.pending ∨ r.status = Status.processing) →
      checkProcess env s = []) ∧
    (env ≠ "true" → hasPending s = false →
      checkProcess env s = [SysAction.cleanTemp, SysAction.exitProcess 0]) ∧
    checkProcess "true" s = [] := by
  refine ⟨?_, ?_, ?_⟩
  · intro h
    have hp : hasPending s = true := (hasPending_eq_true_iff s).mpr h
    by_cases henv : env = "true" <;> simp [checkProcess, henv, hp]
  · intro henv hp
    simp [checkProcess, henv, hp]
  · simp [checkProcess]

/-- A requested quality `{height, bitrate}`. -/
structure QualityReq where
  height : Nat
  bitrate : Nat
deriving DecidableEq

/-- The `s3` block of a request. -/
structure S3Req where
  bucket : String
  region : String
  accessKeyId : String
  secretAccessKey : String
  path : String
  endpoint : Option String
  acl : Option String
deriving DecidableEq

/-- One requested subtitle `{url, language}`. -/
structure SubtitleReq where
  url : String
  language : String
deriving DecidableEq

/-- `ConverterParams` as received by `POST /`. Option models an absent field;
for strings, "" models both the empty string and absence (both falsy where the
code tests truthiness). -/
structure Params where
  source : String
  qualities : Option (List QualityReq)
  s3 : Option S3Req
  defaultAudioLang : String
  subtitles : Option (List SubtitleReq)
  extraUploads : Option (List String)
  processId : Option Nat
  callbackUrl : Option String
deriving DecidableEq

/-- The INSERT branch of `Queue.push`:
`INSERT INTO process_queue (status, source) VALUES ('pending', ?)`,
followed by `return this.getProcess(processId)`. -/
def pushFresh (s : Store) (p : Params) : Store × Option Row :=
  let newId := nextId s
  let s2 := s ++ [{ id := newId, status := Status.pending, source := p.source }]
  (s2, getProcess s2 newId)

/-- `Queue.push`: `const processId = params.processId || INSERT ...` and, at
the end, `return this.getProcess(processId)`; the fastq dispatch in between
performs no synchronous store write. JS `||` treats the number 0 as falsy, so
`processId: 0` also takes the INSERT branch. -/
def push (s : Store) (p : Params) : Store × Option Row :=
  match p.processId with
  | some pid => if pid = 0 then pushFresh s p else (s, getProcess s pid)
  | none => pushFresh s p

/-- An HTTP response of the express routes. -/
inductive HttpResult (α : Type) where
  | ok (value : α)
  | badRequest (error : String)
  | notFound (error : String)
deriving DecidableEq

/-- `app.get('/:id')`: `queue.getProcess(id)`, 404 when falsy, 200 with the
row otherwise. -/
def getIdHandler (s : Store) (id : Nat) : HttpResult Row :=
  match getProcess s id with
  | some r => HttpResult.ok r
  | none => HttpResult.notFound "Process not found"

/-- The quality-validation loop of `app.post('/')`: the first failing check
produces the response (`!quality.height` is true for 0, and the JSON body
always yields numbers, so the typeof checks cannot fire in this model). -/
def validateQualities : List QualityReq → Option String
  | [] => none
  | q :: rest =>
    if q.height = 0 then some "provide quality height"
    else if q.bitrate = 0 then some "provide quality bitrate"
    else validateQualities rest

/-- The subtitle-validation loop of `app.post('/')`. -/
def validateSubtitles : List SubtitleReq → Option String
  | [] => none
  | sub :: rest =>
    if sub.url = "" then some "provide subtitle url"
    else if sub.language = "" then some "provide subtitle language"
    else validateSubtitles rest

/-- `app.post('/')`: the validation chain in source order, then
`queue.push(params)` and a 200 response carrying the row push returned
(`{message: 'Added to queue', ...process}`). -/
def postHandler (s : Store) (p : Params) : Store × HttpResult (Option Row) :=
  if p.source = "" then (s, HttpResult.badRequest "provide source")
  else
    match p.qualities with
    | none => (s, HttpResult.badRequest "provide qualities")
    | some qs =>
      if qs.length = 0 then (s, HttpResult.badRequest "provide at least one quality")
      else
        match validateQualities qs with
        | some e => (s, HttpResult.badRequest e)
        | none =>
          match p.s3 with
          | none => (s, HttpResult.badRequest "provide s3")
          | some s3v =>
            if s3v.bucket = "" then (s, HttpResult.badRequest "provide s3 bucket")
            else if s3v.region = "" then (s, HttpResult.badRequest "provide s3 region")
            else if s3v.accessKeyId = "" then (s, HttpResult.badRequest "provide s3 accessKeyId")
            else if s3v.secretAccessKey = "" then
              (s, HttpResult.badRequest "provide s3 secretAccessKey")
            else if s3v.path = "" then (s, HttpResult.badRequest "provide s3 path")
            else
              match validateSubtitles (p.subtitles.getD []) with
              | some e => (s, HttpResult.badRequest e)
              | none =>
                let res := push s p
                (res.1, HttpResult.ok res.2)

theorem id_lt_nextId (s : Store) : ∀ r ∈ s, r.id < nextId s := by
  intro r hr
  have h : r.id ≤ (s.map fun r => r.id).foldr max 0 := by
    induction s with
    | nil => cases hr
    | cons a t ih =>
      rcases List.mem_cons.mp hr with rfl | hmem
      · exact le_max_left _ _
      · exact le_trans (ih hmem) (le_max_right _ _)
  exact Nat.lt_succ_of_le h

theorem getProcess_append_fresh (s : Store) (r : Row)
    (h : ∀ x ∈ s, x.id ≠ r.id) : getProcess (s ++ [r]) r.id = some r := by
  unfold getProcess
  induction s with
  | nil => simp
  | cons a t ih =>
    have ha : (a.id == r.id) = false := by
      simpa using h a (List.mem_cons_self a t)
    simp only [List.cons_append, List.find?_cons, ha]
    exact ih fun x hx => h x (List.mem_cons_of_mem a hx)

theorem pushFresh_spec (s : Store) (p : Params) :
    ∃ r : Row, pushFresh s p = (s ++ [r], some r) ∧ r.status = Status.pending ∧
      r.source = p.source ∧ r.id = nextId s := by
  refine ⟨{ id := nextId s, status := Status.pending, source := p.source }, ?_, rfl, rfl, rfl⟩
  unfold pushFresh
  have h := getProcess_append_fresh s
    { id := nextId s, status := Status.pending, source := p.source }
    (fun x hx => Nat.ne_of_lt (id_lt_nextId s x hx))
  simp only at h ⊢
  rw [h]

/-- C4: a push whose params carry no processId appends exactly one new row,
with status `pending` and the request's source, and returns that row; a
`GET /:id` on the resulting store returns the same pending row, and a 200
response of `POST /` for such params carries it. -/
theorem push_no_processId_pending (s : Store) (p : Params) (h : p.processId = none) :
    (∃ r : Row, push s p = (s ++ [r], some r) ∧ r.status = Status.pending ∧
      r.source = p.source ∧ r.id = nextId s ∧
      getIdHandler (s ++ [r]) r.id = HttpResult.ok r) ∧
    (∀ s2 res, postHandler s p = (s2, res) →
      ∀ r0, res = HttpResult.ok r0 →
        ∃ r : Row, s2 = s ++ [r] ∧ r0 = some r ∧ r.status = Status.pending ∧
          r.source = p.source) := by
  have hmain : ∃ r : Row, push s p = (s ++ [r], some r) ∧ r.status = Status.pending ∧
      r.source = p.source ∧ r.id = nextId s := by
    rcases pushFresh_spec s p with ⟨r, hr, h1, h2, h3⟩
    exact ⟨r, by simp [push, h, hr], h1, h2, h3⟩
  constructor
  · rcases hmain with ⟨r, hr, h1, h2, h3⟩
    refine ⟨r, hr, h1, h2, h3, ?_⟩
    have hfind : getProcess (s ++ [r]) r.id = some r := by
      have := getProcess_append_fresh s r
        (fun x hx => by rw [h3]; exact Nat.ne_of_lt (id_lt_nextId s x hx))
      exact this
    simp [getIdHandler, hfind]
  · intro s2 res hpost r0 hres
    rcases hmain with ⟨r, hr, h1, h2, h3⟩
    subst hres
    unfold postHandler at hpost
    repeat' split at hpost
    all_goals simp only [Prod.mk.injEq] at hpost
    all_goals
      first
      | (obtain ⟨hL, hR⟩ := hpost
         rw [hr] at hL hR
         simp only [HttpResult.ok.injEq] at hL hR
         exact ⟨r, hL.symm, hR.symm, h1, h2⟩)
      | simp at hpost

/-- A store holding one failed job, as left behind by a crashed run. -/
def retryStore : Store := [{ id := 5, status := Status.failed, source := "http://x/a.mp4" }]

/-- A resubmission of job 5: the body carries `processId: 5`. -/
def retryParams : Params :=
  { source := "http://x/a.mp4"
    qualities := some [{ height := 720, bitrate := 3000 }]
    s3 := some { bucket := "b", region := "r", accessKeyId := "k", secretAccessKey := "sk"
                 path := "p", endpoint := none, acl := none }
    defaultAudioLang := ""
    subtitles := none
    extraUploads := none
    processId := some 5
    callbackUrl := none }

/-- The same body with `processId: 0`, which JS `||` treats as absent. -/
def zeroPidParams : Params := { retryParams with processId := some 0 }

/-- C10 counterexample: a push whose params carry the processId 0 does insert
a new row (JS `params.processId || INSERT...` treats 0 as falsy), so the
claim's "for every call whose params carry a processId, no row is inserted"
fails at processId = 0. -/
theorem push_zero_processId_inserts :
    zeroPidParams.processId = some 0 ∧
    (push [] zeroPidParams).1 =
      [{ id := 1, status := Status.pending, source := "http://x/a.mp4" }] := by
  constructor
  · rfl
  · rfl

/-- C10 (amended to nonzero ids, the values AUTOINCREMENT produces): a push
whose params carry a nonzero processId inserts nothing — the store is returned
unchanged — and the value returned is the stored row with that id, whatever
its status; `POST /` with such a body never changes the store and, when it
responds 200, carries that existing row. -/
theorem push_existing_processId (s : Store) (p : Params) (pid : Nat)
    (hpid : p.processId = some pid) (hnz : pid ≠ 0) :
    push s p = (s, getProcess s pid) ∧
    (postHandler s p).1 = s ∧
    ((postHandler s p).2 = HttpResult.ok (getProcess s pid) ∨
      ∃ e, (postHandler s p).2 = HttpResult.badRequest e) := by
  have hpush : push s p = (s, getProcess s pid) := by
    simp [push, hpid, hnz]
  refine ⟨hpush, ?_, ?_⟩
  · unfold postHandler
    repeat' split
    all_goals simp [hpush]
  · unfold postHandler
    repeat' split
    all_goals simp [hpush]

/-- C10 witness: resubmitting job 5 of `retryStore` leaves the store unchanged
and returns the stored failed row. -/
theorem push_existing_processId_witness :
    push retryStore retryParams =
      (retryStore, some { id := 5, status := Status.failed, source := "http://x/a.mp4" }) :=
  (push_existing_processId retryStore retryParams 5 rfl (by decide)).1

/-- C4 witness: pushing `zeroPidParams`-like params without processId on the
empty store returns a fresh pending row. -/
theorem push_no_processId_pending_witness :
    ∃ r : Row, push [] { retryParams with processId := none } = ([] ++ [r], some r) ∧
      r.status = Status.pending ∧ r.source = "http://x/a.mp4" ∧ r.id = nextId [] ∧
      getIdHandler ([] ++ [r]) r.id = HttpResult.ok r :=
  (push_no_processId_pending [] { retryParams with processId := none } rfl).1

/-- The object `Queue.push` hands to the fastq worker:
`{ ...params, onStart: () => UPDATE process_queue SET status='processing' WHERE id=? }`.
The onStart closure is represented by the status it writes when invoked. -/
structure QueueItem where
  params : Params
  onStart : Option Status
deriving DecidableEq

/-- The round trip through the worker's params file:
`fs.writeFileSync(paramsFile, JSON.stringify(params))` in `worker()` and
`JSON.parse(fs.readFileSync(fileParams))` in the spawned converter process.
JSON.stringify omits function-valued properties (ECMA-262, SerializeJSONProperty),
so the `onStart` callback does not survive the handoff. -/
def paramsFileRoundTrip (q : QueueItem) : QueueItem :=
  { q with onStart := none }

/-- The status writes the spawned converter triggers on the job row:
`if (onStart) { onStart(); }` at the start of `converter()`; the converter
performs no other write to `process_queue`. -/
def converterOnStartWrites (q : QueueItem) : List Status :=
  match q.onStart with
  | some st => [st]
  | none => []

/-- The sequence of statuses written to a freshly pushed job's row over its
whole lifecycle: the INSERT (`'pending'`), whatever the converter's onStart
call writes after the params-file handoff, and the resolution handler
(`'done'` when the spawned process exits 0, `'failed'` otherwise). -/
def rowStatusWrites (p : Params) (exitCode : Nat) : List Status :=
  [Status.pending] ++
    converterOnStartWrites (paramsFileRoundTrip { params := p, onStart := some Status.processing }) ++
    [if exitCode = 0 then Status.done else Status.failed]

/-- The per-row status sequences the claim's state machine allows for a
completed run. -/
def claimAllowedSequences : List (List Status) :=
  [[Status.pending, Status.processing, Status.done],
   [Status.pending, Status.processing, Status.failed]]

/-- C1 (code bug): crash recovery at construction does rewrite every pending
or processing row to failed, but a completed job's row never passes through
'processing' — the onStart callback is dropped by JSON.stringify at the
parent-to-child handoff, so a successful run writes pending then done and a
failed run pending then failed, sequences the claimed state machine does not
produce. -/
theorem rowStatusWrites_skips_processing :
    recoverStartup
        [{ id := 1, status := Status.pending, source := "a" },
         { id := 2, status := Status.processing, source := "b" },
         { id := 3, status := Status.done, source := "c" },
         { id := 4, status := Status.failed, source := "d" }] =
      [{ id := 1, status := Status.failed, source := "a" },
       { id := 2, status := Status.failed, source := "b" },
       { id := 3, status := Status.done, source := "c" },
       { id := 4, status := Status.failed, source := "d" }] ∧
    rowStatusWrites retryParams 0 = [Status.pending, Status.done] ∧
    rowStatusWrites retryParams 1 = [Status.pending, Status.failed] ∧
    rowStatusWrites retryParams 0 ∉ claimAllowedSequences ∧
    rowStatusWrites retryParams 1 ∉ claimAllowedSequences := by
  refine ⟨by decide, rfl, rfl, by decide, by decide⟩

/-- Split a character list at every occurrence of `sep`: the semantics of JS
`String.prototype.split` with a non-empty separator (and of Lean's own
`String.splitOn`), written with explicit fuel so that terms reduce by kernel
computation. Each step consumes at least one character, so fuel equal to the
length plus one is enough. -/
def splitSepAux (sep : List Char) : Nat → List Char → List Char → List String
  | 0, rest, acc => [String.mk (acc.reverse ++ rest)]
  | _ + 1, [], acc => [String.mk acc.reverse]
  | fuel + 1, x :: xs, acc =>
    if sep.isPrefixOf (x :: xs) then
      String.mk acc.reverse :: splitSepAux sep fuel ((x :: xs).drop sep.length) []
    else
      splitSepAux sep fuel xs (x :: acc)

/-- JS `s.split(sep)` for a non-empty separator. -/
def jsSplit (s sep : String) : List String :=
  splitSepAux sep.toList (s.toList.length + 1) s.toList []

/-- JS `s.startsWith(p)`. -/
def jsStartsWith (s p : String) : Bool :=
  p.toList.isPrefixOf s.toList

/-- JS `s.slice(n)` / Lean `String.drop`, on the character list. -/
def jsDrop (s : String) (n : Nat) : String :=
  String.mk (s.toList.drop n)

def digitsToNatAux : List Char → Nat → Option Nat
  | [], acc => some acc
  | c :: cs, acc =>
    if c.isDigit then digitsToNatAux cs (acc * 10 + (c.toNat - 48)) else none

/-- `Number(s)` (and `.toNat?`) on a nonnegative integer literal: `some n` when
the string is nonempty and all digits, `none` otherwise (JS would yield NaN;
the call sites modelled here only receive digit strings). -/
def digitsToNat? (s : String) : Option Nat :=
  match s.toList with
  | [] => none
  | c :: cs => digitsToNatAux (c :: cs) 0

def natToDigitsAux : Nat → Nat → List Char → List Char
  | 0, _, acc => acc
  | fuel + 1, n, acc =>
    let d := Char.ofNat (n % 10 + 48)
    if n < 10 then d :: acc else natToDigitsAux fuel (n / 10) (d :: acc)

/-- The decimal rendering of a natural number (`Number.prototype.toString`),
with fuel so that terms reduce by kernel computation. -/
def natToString (n : Nat) : String :=
  String.mk (natToDigitsAux (n + 1) n [])

/-- JS `xs.join(sep)`. -/
def joinWith (sep : String) : List String → String
  | [] => ""
  | [x] => x
  | x :: y :: xs => x ++ sep ++ joinWith sep (y :: xs)

/-- ASCII lower-casing (`String.prototype.toLowerCase` on the ASCII fragment). -/
def lowerAscii (s : String) : String :=
  String.mk (s.toList.map Char.toLower)

/-- A wall-clock instant with the components node-cron matches a five-field
expression against. -/
structure CronTime where
  sec : Nat
  min : Nat
  hour : Nat
  day : Nat
  month : Nat
  weekday : Nat
deriving DecidableEq

/-- One cron field against one value: `*` matches anything, `*/n` matches the
multiples of the step, a literal number matches itself — the fragment of cron
syntax this repository uses. -/
def cronFieldMatches (field : String) (v : Nat) : Bool :=
  if field = "*" then true
  else if jsStartsWith field "*/" then
    match digitsToNat? (jsDrop field 2) with
    | some n => if n = 0 then false else v % n == 0
    | none => false
  else
    match digitsToNat? field with
    | some n => v == n
    | none => false

/-- node-cron's semantics for a five-field expression
`minute hour day-of-month month day-of-week`: the task fires at second 0 of
every instant whose five fields all match (matching seconds other than 0
requires a sixth leading field, which the repository's expressions lack). -/
def cronFiresAt (expr : String) (t : CronTime) : Bool :=
  match jsSplit expr " " with
  | [minF, hourF, dayF, monthF, weekdayF] =>
    t.sec == 0 && cronFieldMatches minF t.min && cronFieldMatches hourF t.hour &&
      cronFieldMatches dayF t.day && cronFieldMatches monthF t.month &&
      cronFieldMatches weekdayF t.weekday
  | _ => false

/-- The schedule string installed around `checkProcess` in `src/cron/index.ts`. -/
def checkProcessCronExpr : String := "*/1 * * * *"

/-- The schedule string of the earlier variant of the cron entry point. -/
def earlierCronExpr : String := "* * * * *"

/-- C9 (code bug): the cron expression driving `checkProcess` fires exactly at
second 0 of every minute — a 60-second period — in both variants, so the
watchdog check does not run every 5 seconds: 5 seconds after a firing instant
it does not fire. -/
theorem checkProcessCron_period :
    (∀ t : CronTime, cronFiresAt checkProcessCronExpr t = (t.sec == 0)) ∧
    (∀ t : CronTime, cronFiresAt earlierCronExpr t = (t.sec == 0)) ∧
    cronFiresAt checkProcessCronExpr { sec := 0, min := 0, hour := 0, day := 1, month := 1, weekday := 1 } = true ∧
    cronFiresAt checkProcessCronExpr { sec := 5, min := 0, hour := 0, day := 1, month := 1, weekday := 1 } = false := by
  have hsplit : jsSplit checkProcessCronExpr " " = ["*/1", "*", "*", "*", "*"] := by decide
  have hsplit2 : jsSplit earlierCronExpr " " = ["*", "*", "*", "*", "*"] := by decide
  have hstar : ∀ v, cronFieldMatches "*" v = true := fun v => rfl
  have hstep : ∀ v, cronFieldMatches "*/1" v = (v % 1 == 0) := fun v => rfl
  refine ⟨?_, ?_, by decide, by decide⟩
  · intro t
    unfold cronFiresAt
    rw [hsplit]
    simp only [hstar, hstep, Nat.mod_one, Bool.and_true, beq_self_eq_true, Bool.true_and]
  · intro t
    unfold cronFiresAt
    rw [hsplit2]
    simp only [hstar, Bool.and_true]

/-- An ffprobe stream as the converter consumes it: `codec_type`, `codec_name`,
`height` (absent on non-video streams), and the stream `index`. -/
structure ProbeStream where
  index : Nat
  codec_type : String
  codec_name : String
  height : Option Nat
deriving DecidableEq

/-- `stream.height || 0`: JS `||` with undefined falsy (and 0 falsy, which
also yields 0). -/
def heightD (s : ProbeStream) : Nat :=
  s.height.getD 0

/-- The non-thumbnail video streams:
`streams.filter(s => s.codec_type === 'video' && s.codec_name !== 'mjpeg')`. -/
def videoTracksOf (streams : List ProbeStream) : List ProbeStream :=
  streams.filter fun s => decide (s.codec_type = "video") && decide (s.codec_name ≠ "mjpeg")

/-- Insertion step of the stable descending sort by `(b.height||0) - (a.height||0)`:
`a` passes every earlier element of strictly larger height and lands before the
first element whose height is not larger (so, on a tie, before it). -/
def insertByHeightDesc (a : ProbeStream) : List ProbeStream → List ProbeStream
  | [] => [a]
  | b :: rest =>
    if heightD a < heightD b then b :: insertByHeightDesc a rest else a :: b :: rest

/-- `videoTracks.sort((a, b) => (b.height || 0) - (a.height || 0))`:
Array#sort is stable (ES2019), and for a total preorder on the key a stable
sort's output is unique, so this insertion sort computes the same list. -/
def sortByHeightDesc : List ProbeStream → List ProbeStream
  | [] => []
  | a :: rest => insertByHeightDesc a (sortByHeightDesc rest)

/-- Specification-side reference selection: the first stream attaining the
maximal height, written without sorting. -/
def firstMaxByHeight : List ProbeStream → Option ProbeStream
  | [] => none
  | a :: rest =>
    match firstMaxByHeight rest with
    | none => some a
    | some b => if heightD a < heightD b then some b else some a

/-- The reference-selection and quality-filtering prefix of `converter()`
(converter.ts lines 120-142): filter the video tracks, fail with
"no video tracks found" when none remain (the code checks
`!videoTracks.length`; the head of the sorted list is none exactly then),
sort descending by height and take element 0, filter the requested qualities
by `quality.height <= (videoTrack.height || 0)`, and fail with
"no quality found" when nothing remains. -/
def selectAndFilter (streams : List ProbeStream) (qualities : List QualityReq) :
    Except String (ProbeStream × List QualityReq) :=
  let videoTracks := videoTracksOf streams
  match (sortByHeightDesc videoTracks).head? with
  | none => Except.error "no video tracks found"
  | some videoTrack =>
    let filteredQualities := qualities.filter fun q => decide (q.height ≤ heightD videoTrack)
    if filteredQualities.isEmpty then Except.error "no quality found"
    else Except.ok (videoTrack, filteredQualities)

theorem insertByHeightDesc_head (a : ProbeStream) (l : List ProbeStream) :
    (insertByHeightDesc a l).head? =
      match l.head? with
      | none => some a
      | some b => if heightD a < heightD b then some b else some a := by
  cases l with
  | nil => rfl
  | cons b rest =>
    by_cases h : heightD a < heightD b <;> simp [insertByHeightDesc, h]

theorem sortByHeightDesc_head (l : List ProbeStream) :
    (sortByHeightDesc l).head? = firstMaxByHeight l := by
  induction l with
  | nil => rfl
  | cons a rest ih =>
    rw [sortByHeightDesc, insertByHeightDesc_head, ih, firstMaxByHeight]

theorem firstMaxByHeight_eq_none (l : List ProbeStream) :
    firstMaxByHeight l = none ↔ l = [] := by
  cases l with
  | nil => simp [firstMaxByHeight]
  | cons a rest =>
    simp only [firstMaxByHeight]
    rcases hrest : firstMaxByHeight rest with _ | b
    · simp
    · by_cases hab : heightD a < heightD b <;> simp [hab]

theorem firstMaxByHeight_spec (l : List ProbeStream) (m : ProbeStream)
    (h : firstMaxByHeight l = some m) :
    (∃ l₁ l₂, l = l₁ ++ m :: l₂ ∧ ∀ x ∈ l₁, heightD x < heightD m) ∧
      ∀ x ∈ l, heightD x ≤ heightD m := by
  induction l generalizing m with
  | nil => cases h
  | cons a rest ih =>
    simp only [firstMaxByHeight] at h
    rcases hrest : firstMaxByHeight rest with _ | b <;> simp only [hrest] at h
    · injection h with h
      subst h
      have hre : rest = [] := (firstMaxByHeight_eq_none rest).mp hrest
      subst hre
      exact ⟨⟨[], [], rfl, by simp⟩, by simp⟩
    · rcases ih b hrest with ⟨⟨l₁, l₂, hsplit, hlt⟩, hmax⟩
      by_cases hab : heightD a < heightD b
      · rw [if_pos hab] at h
        injection h with h
        subst h
        refine ⟨⟨a :: l₁, l₂, by simp [hsplit], ?_⟩, ?_⟩
        · intro x hx
          rcases List.mem_cons.mp hx with rfl | hx
          · exact hab
          · exact hlt x hx
        · intro x hx
          rcases List.mem_cons.mp hx with rfl | hx
          · exact le_of_lt hab
          · exact hmax x hx
      · rw [if_neg hab] at h
        injection h with h
        subst h
        refine ⟨⟨[], rest, rfl, by simp⟩, ?_⟩
        intro x hx
        rcases List.mem_cons.mp hx with rfl | hx
        · exact le_refl _
        · exact le_trans (hmax x hx) (Nat.le_of_not_lt hab)

/-- C5: the converter fails with "no video tracks found" when no non-mjpeg
video stream exists; otherwise it selects as reference the first stream of
maximal height among `codec_type = "video" ∧ codec_name ≠ "mjpeg"` streams
(every earlier such stream is strictly lower, every such stream is no taller),
keeps exactly the requested qualities whose height is at most the reference
height (equality accepted, so nothing is upscaled), and fails with
"no quality found" when that filtered list is empty. -/
theorem selectAndFilter_spec (streams : List ProbeStream) (qualities : List QualityReq) :
    (videoTracksOf streams = [] →
      selectAndFilter streams qualities = Except.error "no video tracks found") ∧
    (∀ vt fq, selectAndFilter streams qualities = Except.ok (vt, fq) →
      (∃ l₁ l₂, videoTracksOf streams = l₁ ++ vt :: l₂ ∧ ∀ x ∈ l₁, heightD x < heightD vt) ∧
      (∀ x ∈ videoTracksOf streams, heightD x ≤ heightD vt) ∧
      fq = qualities.filter (fun q => decide (q.height ≤ heightD vt)) ∧
      (∀ q, q ∈ fq ↔ q ∈ qualities ∧ q.height ≤ heightD vt) ∧ fq ≠ []) ∧
    (∀ vt, firstMaxByHeight (videoTracksOf streams) = some vt →
      qualities.filter (fun q => decide (q.height ≤ heightD vt)) = [] →
      selectAndFilter streams qualities = Except.error "no quality found") := by
  refine ⟨?_, ?_, ?_⟩
  · intro h
    simp only [selectAndFilter, sortByHeightDesc_head, h, firstMaxByHeight]
  · intro vt fq h
    simp only [selectAndFilter, sortByHeightDesc_head] at h
    rcases hsel : firstMaxByHeight (videoTracksOf streams) with _ | m <;> simp only [hsel] at h
    · cases h
    · by_cases hemp : (qualities.filter fun q => decide (q.height ≤ heightD m)).isEmpty
      · rw [if_pos hemp] at h; cases h
      · rw [if_neg hemp] at h
        injection h with h
        injection h with h1 h2
        subst h1
        rcases firstMaxByHeight_spec _ _ hsel with ⟨hdecomp, hmax⟩
        refine ⟨hdecomp, hmax, h2.symm, ?_, ?_⟩
        · intro q
          rw [← h2]
          simp [List.mem_filter]
        · rw [← h2]
          intro hc
          rw [hc] at hemp
          exact hemp rfl
  · intro vt hsel hfil
    simp only [selectAndFilter, sortByHeightDesc_head, hsel, hfil, List.isEmpty_nil, if_pos]

/-- A probe result with two 720-height video streams (a tie), an mjpeg
thumbnail stream and an audio stream. -/
def cStreams : List ProbeStream :=
  [{ index := 0, codec_type := "video", codec_name := "h264", height := some 720 },
   { index := 1, codec_type := "audio", codec_name := "aac", height := none },
   { index := 2, codec_type := "video", codec_name := "mjpeg", height := some 1080 },
   { index := 3, codec_type := "video", codec_name := "hevc", height := some 720 }]

/-- Requested qualities 1080 (above the source) and 720 (equal to it). -/
def cQualities : List QualityReq :=
  [{ height := 1080, bitrate := 6000 }, { height := 720, bitrate := 3000 }]

/-- The reference stream the converter picks for `cStreams`: the first of the
two tied 720 streams. -/
def cVt : ProbeStream :=
  { index := 0, codec_type := "video", codec_name := "h264", height := some 720 }

/-- The accepted qualities for `cStreams`/`cQualities`. -/
def cFq : List QualityReq :=
  [{ height := 720, bitrate := 3000 }]

/-- C5 witness: at the concrete probe result, the accepted list is exactly the
`height ≤ 720` filter of the request. -/
theorem selectAndFilter_spec_witness :
    cFq = cQualities.filter (fun q => decide (q.height ≤ heightD cVt)) :=
  (((selectAndFilter_spec cStreams cQualities).2.1 cVt cFq (by rfl)).2.2).1

/-- The blank-line delimiters `srtToVtt` recognizes between cue blocks. -/
def blankLine : List String :=
  ["", "\n\n", "\n", "\r\n", "\r", "\t", "\t\t", "\t\t\t"]

/-- The grouping loop of `srtToVtt`: lines accumulate until a blank line
pushes the block; a final block not followed by a blank line is dropped (the
loop never pushes it). -/
def srtParts : List String → List String → List (List String)
  | [], _ => []
  | l :: ls, acc =>
    if blankLine.contains l then acc :: srtParts ls []
    else srtParts ls (acc ++ [l])

/-- JS `x || d` on a string that may be undefined: undefined and "" are falsy. -/
def jsOrStr (x : Option String) (d : String) : String :=
  match x with
  | some s => if s = "" then d else s
  | none => d

/-- JS `Number(s)` followed by `.toString()`: digit strings render through
their numeric value, anything non-numeric renders "NaN" (the timestamps
`timeSrtToVtt` receives are digit strings; the model covers the nonnegative
integer fragment). -/
def jsNumberToString (s : String) : String :=
  match digitsToNat? s with
  | some n => natToString n
  | none => "NaN"

/-- `String.prototype.padStart(width, "0")`. -/
def padStartZero (s : String) (width : Nat) : String :=
  String.mk (List.replicate (width - s.length) '0') ++ s

/-- `timeSrtToVtt`: split "HH:MM:SS,mmm" on ":", the last component on ",",
run every piece through `Number(x || "0")`, and reassemble with "." before the
milliseconds, each piece zero-padded (2, 2, 2 and 3 wide). -/
def timeSrtToVtt (time : String) : String :=
  let comps := jsSplit time ":"
  let hours := comps[0]?
  let minutes := comps[1]?
  let last := comps[2]?
  let secMs := jsSplit (jsOrStr last "0,0") ","
  let seconds := secMs[0]?
  let milliseconds := secMs[1]?
  let numHours := jsNumberToString (jsOrStr hours "0")
  let numMinutes := jsNumberToString (jsOrStr minutes "0")
  let numSeconds := jsNumberToString (jsOrStr seconds "0")
  let numMilliseconds := jsNumberToString (jsOrStr milliseconds "0")
  padStartZero numHours 2 ++ ":" ++ padStartZero numMinutes 2 ++ ":" ++
    padStartZero numSeconds 2 ++ "." ++ padStartZero numMilliseconds 3

/-- `line.includes(" --> ")`: splitting on the arrow yields at least two
pieces exactly when the arrow occurs. -/
def hasArrow (line : String) : Bool :=
  decide (2 ≤ (jsSplit line " --> ").length)

/-- Everything after the cue id in one emitted vtt block: the rewritten
timestamp line, the cue text lines joined with newlines, and the closing
blank line (the `${vttStartAt} --> ${vttEndAt}\n${texts.join("\n")}\n\n` part
of the template). `part[timeIndex]` is total here because the index comes from
`findIndex`. -/
def cueBody (part : List String) (timeIndex : Nat) : String :=
  let timeLine := part.getD timeIndex ""
  let pieces := jsSplit timeLine " --> "
  let startAt := (pieces[0]?).getD ""
  let endAt := (pieces[1]?).getD ""
  let texts := part.drop (timeIndex + 1)
  timeSrtToVtt startAt ++ " --> " ++ timeSrtToVtt endAt ++ "\n" ++
    joinWith "\n" texts ++ "\n\n"

/-- One iteration of the `srtToVtt` cue loop at block index `i`: blocks with
no timestamp line are skipped (`continue`); otherwise the emitted block is the
id `i + 1` on its own line followed by the rewritten cue. -/
def cueBlock (i : Nat) (part : List String) : String :=
  match part.findIdx? hasArrow with
  | none => ""
  | some timeIndex => natToString (i + 1) ++ "\n" ++ cueBody part timeIndex

/-- The `for (let i = 0; i < parts.length; i++)` loop of `srtToVtt`. -/
def cueBlocksFrom (i : Nat) : List (List String) → String
  | [] => ""
  | part :: rest => cueBlock i part ++ cueBlocksFrom (i + 1) rest

/-- `srtToVtt` of the converter: split the srt text into lines, group the
lines into blank-line-delimited blocks, and emit "WEBVTT" followed by the
renumbered, timestamp-rewritten cue blocks. (`split("\n")` never yields an
empty array, so the null branch is unreachable, but it is kept.) -/
def srtToVtt (srt : String) : Option String :=
  let srtLines := jsSplit srt "\n"
  if srtLines.isEmpty then none
  else
    let parts := srtParts srtLines []
    some ("WEBVTT\n\n" ++ cueBlocksFrom 0 parts)

/-- The claim's 2-cue srt input. -/
def sampleSrt : String :=
  "1\n00:00:01,000 --> 00:00:02,500\nHello world\n\n2\n00:00:02,500 --> 00:00:04,000\nSecond cue\n"

/-- The vtt text `srtToVtt` produces for `sampleSrt`. -/
def sampleVtt : String :=
  "WEBVTT\n\n1\n00:00:01.000 --> 00:00:02.500\nHello world\n\n2\n00:00:02.500 --> 00:00:04.000\nSecond cue\n\n"

/-- C6: the srt converter parses blank-line-delimited cue blocks, rewrites
"HH:MM:SS,mmm" timestamps to "HH:MM:SS.mmm", keeps the cue text lines, and
numbers every emitted cue with its 1-based block position; on the claim's
2-cue input it produces exactly the expected vtt text, with the two
timestamps of the first cue rewritten as stated, the cue text preserved and
the cues numbered 1 and 2. -/
theorem srtToVtt_spec :
    srtToVtt sampleSrt = some sampleVtt ∧
    (∀ i part j, part.findIdx? hasArrow = some j →
      cueBlock i part = natToString (i + 1) ++ "\n" ++ cueBody part j) ∧
    timeSrtToVtt "00:00:01,000" = "00:00:01.000" ∧
    timeSrtToVtt "00:00:02,500" = "00:00:02.500" := by
  refine ⟨by decide, ?_, by decide, by decide⟩
  intro i part j h
  simp only [cueBlock, h]

/-- One collected audio-task result: `{ path, lang, title? }`. -/
structure AudioTrackRes where
  path : String
  lang : String
  title : Option String
deriving DecidableEq

/-- One collected video-task result: `{ path, height, bitrate }`. -/
structure VideoTrackRes where
  path : String
  height : Nat
  bitrate : Nat
deriving DecidableEq

/-- One collected subtitle-task result: `{ path, language }`. -/
structure SubtitleTrackRes where
  path : String
  language : String
deriving DecidableEq

/-- `path.join(a, b)` for the two-segment calls used here (plain non-empty
segments, nothing to normalize). -/
def pathJoin (a b : String) : String :=
  a ++ "/" ++ b

/-- Model of the slugify library call `slugify(x, { lower: true })` on the
ASCII fragment the converter feeds it: lower-case and turn spaces into
dashes. -/
def slugifyLower (s : String) : String :=
  joinWith "-" (jsSplit (lowerAscii s) " ")

/-- Model of `new Intl.Locale(tag).language` on well-formed BCP-47 tags: the
primary language subtag, lower-cased. -/
def localeLanguage (tag : String) : String :=
  lowerAscii ((jsSplit tag "-").headD tag)

/-- An entry of `hlsAudioPaths`. -/
structure HlsAudioEntry where
  m3u8 : String
  folder : String
  input : String
  title : Option String
deriving DecidableEq

/-- An entry of `hlsVideoPaths`. -/
structure HlsVideoEntry where
  m3u8 : String
  folder : String
  input : String
deriving DecidableEq

/-- An entry of `hlsSubtitlesPaths`. -/
structure HlsSubEntry where
  m3u8 : String
  folder : String
  input : String
  language : String
deriving DecidableEq

/-- The `audios.map((audio, i) => ...)` folder allocation of `hlsFy`: the
natural folder is named by the slug of `audio.title || audio.lang` (falling
back to the lang when the slug call yields nothing); when that directory
already exists the entry uses `{i}-{slug}` instead — and creates no
directory. `created` is the list of directories made so far in `hlsFolder`
(fresh from mkdtemp, so initially empty). -/
def hlsAudioEntriesAux (hlsFolder : String) :
    Nat → List String → List AudioTrackRes → List HlsAudioEntry × List String
  | _, created, [] => ([], created)
  | i, created, a :: rest =>
    let titleSlug0 := slugifyLower (jsOrStr a.title a.lang)
    let titleSlug := if titleSlug0 = "" then a.lang else titleSlug0
    let naturalFolder := pathJoin hlsFolder titleSlug
    if created.contains naturalFolder then
      let folder := pathJoin hlsFolder (natToString i ++ "-" ++ titleSlug)
      let entry : HlsAudioEntry :=
        { m3u8 := pathJoin folder "audio.m3u8", folder := folder, input := a.path,
          title := a.title }
      let next := hlsAudioEntriesAux hlsFolder (i + 1) created rest
      (entry :: next.1, next.2)
    else
      let entry : HlsAudioEntry :=
        { m3u8 := pathJoin naturalFolder "audio.m3u8", folder := naturalFolder,
          input := a.path, title := a.title }
      let next := hlsAudioEntriesAux hlsFolder (i + 1) (created ++ [naturalFolder]) rest
      (entry :: next.1, next.2)

/-- The `videos.map((video, i) => ...)` folder allocation of `hlsFy`: the
natural folder is the height rendered in decimal, `{i}-{height}` on
collision. -/
def hlsVideoEntriesAux (hlsFolder : String) :
    Nat → List String → List VideoTrackRes → List HlsVideoEntry × List String
  | _, created, [] => ([], created)
  | i, created, v :: rest =>
    let naturalFolder := pathJoin hlsFolder (natToString v.height)
    if created.contains naturalFolder then
      let folder := pathJoin hlsFolder (natToString i ++ "-" ++ natToString v.height)
      let entry : HlsVideoEntry :=
        { m3u8 := pathJoin folder "video.m3u8", folder := folder, input := v.path }
      let next := hlsVideoEntriesAux hlsFolder (i + 1) created rest
      (entry :: next.1, next.2)
    else
      let entry : HlsVideoEntry :=
        { m3u8 := pathJoin naturalFolder "video.m3u8", folder := naturalFolder,
          input := v.path }
      let next := hlsVideoEntriesAux hlsFolder (i + 1) (created ++ [naturalFolder]) rest
      (entry :: next.1, next.2)

/-- The `subtitles.map((subtitle, i) => ...)` folder allocation of `hlsFy`:
the natural folder is "subtitles", `subtitles-{i}` on collision. -/
def hlsSubEntriesAux (hlsFolder : String) :
    Nat → List String → List SubtitleTrackRes → List HlsSubEntry × List String
  | _, created, [] => ([], created)
  | i, created, sub :: rest =>
    let naturalFolder := pathJoin hlsFolder "subtitles"
    if created.contains naturalFolder then
      let folder := pathJoin hlsFolder ("subtitles-" ++ natToString i)
      let entry : HlsSubEntry :=
        { m3u8 := pathJoin folder "subtitles.m3u8", folder := folder, input := sub.path,
          language := sub.language }
      let next := hlsSubEntriesAux hlsFolder (i + 1) created rest
      (entry :: next.1, next.2)
    else
      let entry : HlsSubEntry :=
        { m3u8 := pathJoin naturalFolder "subtitles.m3u8", folder := naturalFolder,
          input := sub.path, language := sub.language }
      let next := hlsSubEntriesAux hlsFolder (i + 1) (created ++ [naturalFolder]) rest
      (entry :: next.1, next.2)

/-- One audio `in=...` descriptor, with `hls_name` appended when the track has
a truthy title. -/
def audioDescriptor (e : HlsAudioEntry) : String :=
  let base := "in=" ++ e.input ++ ",stream=audio,segment_template=" ++ e.folder ++
    "/$Number$.ts,playlist_name=" ++ e.m3u8 ++ ",hls_group_id=audio"
  match e.title with
  | some t => if t = "" then base else base ++ ",hls_name=" ++ t
  | none => base

/-- One video `in=...` descriptor. -/
def videoDescriptor (e : HlsVideoEntry) : String :=
  "in=" ++ e.input ++ ",stream=video,segment_template=" ++ e.folder ++
    "/$Number$.ts,playlist_name=" ++ e.m3u8 ++ ",hls_group_id=video"

/-- One subtitle `in=...` descriptor, with the locale-derived display name. -/
def subtitleDescriptor (e : HlsSubEntry) : String :=
  "in=" ++ e.input ++ ",stream=text,segment_template=" ++ e.folder ++
    "/$Number$.webvtt,playlist_name=" ++ e.m3u8 ++ ",hls_group_id=text,hls_name=" ++
    localeLanguage e.language

/-- `hlsFy`'s default-audio search: the first collected audio whose language
is not "und" and whose primary subtag matches the requested default's. -/
def defaultLangOf (defaultAudioLang : String) (audios : List AudioTrackRes) : Option String :=
  (audios.find? fun a =>
    decide (a.lang ≠ "und") &&
      decide (localeLanguage defaultAudioLang = localeLanguage a.lang)).map fun a => a.lang

/-- The argv `hlsFy` hands to the shaka packager: the audio descriptors, then
the video descriptors, then the subtitle descriptors (each family in its
array's order, folders allocated audio first, then video, then subtitles over
the shared directory state), then `--default_language` when the default-audio
search found a truthy language, then the master-playlist flag. -/
def hlsFyArgs (hlsFolder defaultAudioLang : String) (audios : List AudioTrackRes)
    (videos : List VideoTrackRes) (subtitles : List SubtitleTrackRes) : List String :=
  let audioAlloc := hlsAudioEntriesAux hlsFolder 0 [] audios
  let videoAlloc := hlsVideoEntriesAux hlsFolder 0 audioAlloc.2 videos
  let subAlloc := hlsSubEntriesAux hlsFolder 0 videoAlloc.2 subtitles
  let audiosStr := audioAlloc.1.map audioDescriptor
  let videosStr := videoAlloc.1.map videoDescriptor
  let subtitlesStr := subAlloc.1.map subtitleDescriptor
  let defaultLang := defaultLangOf defaultAudioLang audios
  audiosStr ++ videosStr ++ subtitlesStr ++
    (match defaultLang with
     | some l => if l = "" then [] else ["--default_language", l]
     | none => []) ++
    ["--hls_master_playlist_output", pathJoin hlsFolder "playlist.m3u8"]

/-- The shared-array collection of the converter's concurrent track tasks:
each task runs `results.push(...)` when it completes, so the collected array
holds the task results in completion order. `order` lists the task indices in
the order the tasks completed. -/
def collectInOrder (results : List α) (order : List Nat) : List α :=
  order.filterMap fun i => results[i]?

/-- The packager argv produced by one converter run, as a function of the
per-task results (indexed in probe/request order) and of the completion
orders of the audio, video and subtitle task families. -/
def converterPackagerArgs (hlsFolder defaultAudioLang : String)
    (audioResults : List AudioTrackRes) (videoResults : List VideoTrackRes)
    (subtitleResults : List SubtitleTrackRes)
    (audioOrder videoOrder subtitleOrder : List Nat) : List String :=
  hlsFyArgs hlsFolder defaultAudioLang
    (collectInOrder audioResults audioOrder)
    (collectInOrder videoResults videoOrder)
    (collectInOrder subtitleResults subtitleOrder)

/-- The two audio-task results of the counterexample run (English and
Portuguese tracks; identical in both runs). -/
def cAudioResults : List AudioTrackRes :=
  [{ path := "/tmp/x/en/audio.mp4", lang := "en", title := none },
   { path := "/tmp/x/pt/audio.mp4", lang := "pt", title := none }]

/-- The one video-task result of the counterexample run. -/
def cVideoResults : List VideoTrackRes :=
  [{ path := "/tmp/x/720/video.mp4", height := 720, bitrate := 3000 }]

/-- C7 counterexample: two runs whose download, probe, encode and extraction
steps return identical results but whose two audio tasks complete in opposite
orders hand the packaging tool different argument lists (the audio
descriptors appear in completion order), so the argv is not determined by the
step results alone. -/
theorem converterPackagerArgs_order_dependent :
    converterPackagerArgs "/tmp/hls" "en" cAudioResults cVideoResults [] [0, 1] [0] [] ≠
      converterPackagerArgs "/tmp/hls" "en" cAudioResults cVideoResults [] [1, 0] [0] [] := by
  decide

/-- C7 (amended): the packager argv is determined by the step results
together with the completion orders — two runs whose collected audio, video
and subtitle sequences (results in completion order) coincide produce
identical argument lists; in particular runs with identical results and
identical completion orders do. -/
theorem converterPackagerArgs_deterministic (hlsFolder defaultAudioLang : String)
    (a₁ a₂ : List AudioTrackRes) (v₁ v₂ : List VideoTrackRes)
    (s₁ s₂ : List SubtitleTrackRes) (ao₁ ao₂ vo₁ vo₂ so₁ so₂ : List Nat)
    (ha : collectInOrder a₁ ao₁ = collectInOrder a₂ ao₂)
    (hv : collectInOrder v₁ vo₁ = collectInOrder v₂ vo₂)
    (hs : collectInOrder s₁ so₁ = collectInOrder s₂ so₂) :
    converterPackagerArgs hlsFolder defaultAudioLang a₁ v₁ s₁ ao₁ vo₁ so₁ =
      converterPackagerArgs hlsFolder defaultAudioLang a₂ v₂ s₂ ao₂ vo₂ so₂ := by
  unfold converterPackagerArgs
  rw [ha, hv, hs]

/-- C7 witness: a run collecting the swapped result list in swapped order
produces the same argv as the original run in order. -/
theorem converterPackagerArgs_deterministic_witness :
    converterPackagerArgs "/tmp/hls" "en" cAudioResults cVideoResults [] [1, 0] [0] [] =
      converterPackagerArgs "/tmp/hls" "en" cAudioResults.reverse cVideoResults [] [0, 1] [0] [] :=
  converterPackagerArgs_deterministic "/tmp/hls" "en" cAudioResults cAudioResults.reverse
    cVideoResults cVideoResults [] [] [1, 0] [0, 1] [0] [0] [] []
    (by decide) (by decide) (by decide)

/-- A file system: the written files, most recent first (a write shadows an
older file at the same path). -/
abbrev FS := List (String × String)

/-- `fs.writeFileSync` / a finished download / `fs.copyFileSync`'s target:
record the bytes now at `p`. -/
def fsWrite (f : FS) (p content : String) : FS :=
  (p, content) :: f

/-- The bytes currently at `p`. -/
def fsRead (f : FS) (p : String) : Option String :=
  (f.find? fun e => e.1 == p).map fun e => e.2

/-- Node `path.extname`: the substring of the basename from its last dot,
empty when the basename has no dot or only a leading one. -/
def extname (p : String) : String :=
  let base := (jsSplit p "/").getLastD p
  let pieces := jsSplit base "."
  if pieces.length ≤ 1 then ""
  else if pieces.length = 2 && ((pieces[0]?).getD "x" == "") then ""
  else "." ++ pieces.getLastD ""

/-- `path.extname(u).split("?")[0] || ".vtt"`, the extension the subtitle
pipeline works with. -/
def subtitleExtOf (u : String) : String :=
  jsOrStr (jsSplit (extname u) "?")[0]? ".vtt"

/-- The archive extensions `convertToVtt` would unpack. -/
def compressedExts : List String :=
  [".zip", ".gz", ".tgz", ".tar", ".tar.gz", ".tar.bz2", ".tar.xz"]

/-- `fs.mkdtempSync(path.join(base, "_"))`: a fresh unique directory under
`base`, modelled deterministically by an allocation index (the code relies
only on distinct calls yielding distinct names). -/
def mkdtempModel (base : String) (k : Nat) : String :=
  pathJoin base ("_" ++ natToString k)

/-- `convertToVtt` of the earlier converter (part_006), for non-archive
inputs: a `.vtt`/`.webvtt` file is byte-copied (`fs.copyFileSync`) to
`subtitle.vtt` in a fresh temp folder and that path returned; a `.srt` file's
text goes through `srtToVtt`, which writes the converted text into its own
fresh temp folder; other extensions are rejected with null. Archive
extensions would first unpack through the external decompress library; that
branch is outside this model and yields none here. `copyFileSync`/`readFile`
on a missing source throws; modelled as none. -/
def convertToVtt (f : FS) (subtitlePath baseFolder : String) : FS × Option String :=
  let originalExt := subtitleExtOf subtitlePath
  if compressedExts.contains originalExt then (f, none)
  else
    let subtitleTempFolder := mkdtempModel baseFolder 0
    let vttFilePath := subtitleTempFolder ++ "/subtitle.vtt"
    let sourceExt := subtitleExtOf subtitlePath
    if sourceExt = ".vtt" ∨ sourceExt = ".webvtt" then
      match fsRead f subtitlePath with
      | some content => (fsWrite f vttFilePath content, some vttFilePath)
      | none => (f, none)
    else if sourceExt = ".srt" then
      match fsRead f subtitlePath with
      | some content =>
        match srtToVtt content with
        | some vtt =>
          let tempSubtitle := mkdtempModel baseFolder 1
          let vttPath := pathJoin tempSubtitle "subtitle.vtt"
          (fsWrite f vttPath vtt, some vttPath)
        | none => (f, none)
      | none => (f, none)
    else (f, none)

/-- The subtitle sub-task of the earlier converter for one requested
subtitle: take the url's extension (defaulting ".vtt"), download to
`subtitleFolder/{language}{ext}`, and run `convertToVtt` on the download
unless the extension is already `.vtt`/`.webvtt`, in which case the
downloaded file itself is the processed subtitle. `remote` maps each url to
the bytes it serves. Returns the updated filesystem and the path recorded in
`subtitles` (none when the subtitle was skipped). -/
def subtitleTask (remote : String → String) (f : FS) (sub : SubtitleReq)
    (subtitleFolder baseFolder : String) : FS × Option String :=
  let ext := subtitleExtOf sub.url
  let subtitlePath := pathJoin subtitleFolder (sub.language ++ ext)
  let f1 := fsWrite f subtitlePath (remote sub.url)
  if ext = ".vtt" ∨ ext = ".webvtt" then (f1, some subtitlePath)
  else convertToVtt f1 subtitlePath baseFolder

theorem fsRead_fsWrite (f : FS) (p c : String) :
    fsRead (fsWrite f p c) p = some c := by
  simp [fsRead, fsWrite]

/-- In the earlier converter variant (part_006), a subtitle that is already
web-native VTT is left byte-for-byte unchanged — a url with extension
`.vtt`/`.webvtt` is downloaded and the downloaded file itself, with exactly
the served bytes, is the produced subtitle (no conversion runs); and
`convertToVtt`'s `.vtt`/`.webvtt` branch is a pure byte copy: the produced
`subtitle.vtt` holds exactly the input file's bytes. -/
theorem subtitleTask_vtt_byte_identical (remote : String → String) (f : FS)
    (sub : SubtitleReq) (subtitleFolder baseFolder : String)
    (h : subtitleExtOf sub.url = ".vtt" ∨ subtitleExtOf sub.url = ".webvtt") :
    (∃ p, subtitleTask remote f sub subtitleFolder baseFolder =
        (fsWrite f p (remote sub.url), some p) ∧
      fsRead (fsWrite f p (remote sub.url)) p = some (remote sub.url)) ∧
    (∀ f2 p2 bf content,
      (subtitleExtOf p2 = ".vtt" ∨ subtitleExtOf p2 = ".webvtt") →
      fsRead f2 p2 = some content →
      ∃ q, convertToVtt f2 p2 bf = (fsWrite f2 q content, some q) ∧
        fsRead (fsWrite f2 q content) q = some content) := by
  constructor
  · refine ⟨pathJoin subtitleFolder (sub.language ++ subtitleExtOf sub.url), ?_, ?_⟩
    · simp only [subtitleTask, if_pos h]
    · exact fsRead_fsWrite _ _ _
  · intro f2 p2 bf content hext hread
    have hcomp : compressedExts.contains (subtitleExtOf p2) = false := by
      rcases hext with h1 | h1 <;> rw [h1] <;> decide
    refine ⟨mkdtempModel bf 0 ++ "/subtitle.vtt", ?_, fsRead_fsWrite _ _ _⟩
    simp only [convertToVtt, hcomp, Bool.false_eq_true, if_false, if_pos hext, hread]

/-- The bytes of a web-native caption file served in the witness scenario. -/
def cVttBytes : String :=
  "WEBVTT\n\n1\n00:00:01.000 --> 00:00:02.500\nHello\n"

/-- JS `String.prototype.trim`: strip leading and trailing whitespace. -/
def jsTrim (s : String) : String :=
  String.mk (((s.toList.dropWhile Char.isWhitespace).reverse.dropWhile Char.isWhitespace).reverse)

/-- Model of `new URL(u).pathname` for plain `scheme://host/path` urls: the
path part, query and fragment excluded. -/
def urlPathname (u : String) : String :=
  let noFrag := (jsSplit u "#").headD u
  let noQuery := (jsSplit noFrag "?").headD noFrag
  let segs := jsSplit noQuery "/"
  "/" ++ joinWith "/" (segs.drop 3)

/-- `ALL_SUBTITLE_EXT` of the current converter (dot-less). -/
def allSubtitleExtV1 : List String :=
  ["srt", "vtt", "webvtt"]

/-- `fs.unlinkSync`: remove the file at `p`. -/
def fsErase (f : FS) (p : String) : FS :=
  f.filter fun e => !(e.1 == p)

/-- `downloadSubtitle` of the current converter (converter.ts lines 367-402):
take the last dot-component of the url's pathname (trimmed, lower-cased) as
the extension, reject a missing or unsupported one with null, download to
`{language}.{ext}`, read the downloaded text and pass it — for every
extension, including `vtt` — through `subsrt.convert(text, {format: ext,
to: 'vtt'})`, delete the download when its path differs from
`{language}.vtt`, write the conversion's output there and return that path.
`subsrtConvert text format to` stands for the external subsrt-ts library
call, whose code is outside this repository, so it is a parameter of the
model; everything else is from the source. -/
def downloadSubtitleV1 (subsrtConvert : String → String → String → String)
    (remote : String → String) (f : FS) (sub : SubtitleReq) (baseFolder : String) :
    FS × Option String :=
  let pathname := urlPathname sub.url
  let ext := lowerAscii (jsTrim ((jsSplit pathname ".").getLastD ""))
  if ext = "" then (f, none)
  else if !(allSubtitleExtV1.contains ext) then (f, none)
  else
    let subtitlePath := pathJoin baseFolder (sub.language ++ "." ++ ext)
    let f1 := fsWrite f subtitlePath (remote sub.url)
    let subtitleText := (fsRead f1 subtitlePath).getD ""
    let vtt := subsrtConvert subtitleText ext "vtt"
    let vttPath := pathJoin baseFolder (sub.language ++ ".vtt")
    let f2 := if subtitlePath ≠ vttPath then fsErase f1 subtitlePath else f1
    (fsWrite f2 vttPath vtt, some vttPath)

/-- C8 (code bug): in the current converter's `downloadSubtitle`, a subtitle
url that is already web-native VTT is not copied — the downloaded text goes
through the external subtitle library's vtt-to-vtt conversion and the
produced `.vtt` file holds that conversion's output, whatever function the
library computes, so its bytes equal the downloaded bytes only if the library
conversion happens to fix the text; the pure copy path the claim (and the
spec's round-trip property) describe exists in the earlier variant, where the
same request leaves the bytes untouched. -/
theorem downloadSubtitle_reserializes (subsrtConvert : String → String → String → String) :
    (downloadSubtitleV1 subsrtConvert (fun _ => cVttBytes) []
        { url := "http://x/subs/en.vtt", language := "en" } "/tmp/j" =
      (fsWrite (fsWrite [] "/tmp/j/en.vtt" cVttBytes) "/tmp/j/en.vtt"
          (subsrtConvert cVttBytes "vtt" "vtt"),
        some "/tmp/j/en.vtt") ∧
      fsRead (fsWrite (fsWrite [] "/tmp/j/en.vtt" cVttBytes) "/tmp/j/en.vtt"
          (subsrtConvert cVttBytes "vtt" "vtt")) "/tmp/j/en.vtt" =
        some (subsrtConvert cVttBytes "vtt" "vtt") ∧
      (fsRead (fsWrite (fsWrite [] "/tmp/j/en.vtt" cVttBytes) "/tmp/j/en.vtt"
          (subsrtConvert cVttBytes "vtt" "vtt")) "/tmp/j/en.vtt" = some cVttBytes ↔
        subsrtConvert cVttBytes "vtt" "vtt" = cVttBytes)) ∧
    subtitleTask (fun _ => cVttBytes) [] { url := "http://x/subs/en.vtt", language := "en" }
        "/tmp/j/subs" "/tmp/j" =
      (fsWrite [] "/tmp/j/subs/en.vtt" cVttBytes, some "/tmp/j/subs/en.vtt") := by
  refine ⟨⟨rfl, fsRead_fsWrite _ _ _, ?_⟩, rfl⟩
  rw [fsRead_fsWrite]
  simp

/-- Concrete instance of the earlier variant's copy path: downloading an
`.vtt` subtitle url leaves its bytes untouched at the recorded path. -/
theorem subtitleTask_vtt_byte_identical_witness :
    ∃ p, subtitleTask (fun _ => cVttBytes) [] { url := "http://x/subs/en.vtt", language := "en" }
        "/tmp/j/subs" "/tmp/j" = (fsWrite [] p cVttBytes, some p) ∧
      fsRead (fsWrite [] p cVttBytes) p = some cVttBytes :=
  (subtitleTask_vtt_byte_identical (fun _ => cVttBytes) []
    { url := "http://x/subs/en.vtt", language := "en" } "/tmp/j/subs" "/tmp/j"
    (Or.inl (by decide))).1

end Hlsfy
